import Mathlib

set_option maxRecDepth 8000

/-!
Verification development for the RetailEdge receipt-tracker extraction
pipeline (`src/inngest/agent.ts` and `src/convex/receipts.ts`).

The pipeline's dynamic JavaScript values are embedded as the inductive
type `JsValue`; JavaScript numbers are modelled as rationals (`ℚ`), with
`NaN` as a separate constructor (infinities and IEEE rounding are outside
the model; every number manipulated by the pipeline's claims is a small
decimal, where doubles and rationals agree).
-/

namespace RetailEdge

/-- Dynamic JavaScript/JSON value as handled by the extraction pipeline.
`vUndefined` is JavaScript `undefined`, `vNaN` the number `NaN`. -/
inductive JsValue where
  | vUndefined
  | vNull
  | vBool (b : Bool)
  | vNum (q : ℚ)
  | vNaN
  | vStr (s : String)
  | vArr (xs : List JsValue)
  | vObj (fields : List (String × JsValue))

namespace JsValue

/-- First binding of a key in an object's field list (JS object property
lookup; ids are unique in practice, first match wins). -/
def lookupField : List (String × JsValue) → String → Option JsValue
  | [], _ => none
  | (k, v) :: rest, key => if k = key then some v else lookupField rest key

/-- Optional-chained property access `v?.key`: `undefined` for a missing
key or any non-object base (numbers, strings, arrays, null, undefined). -/
def getField (v : JsValue) (key : String) : JsValue :=
  match v with
  | .vObj fs => (lookupField fs key).getD .vUndefined
  | _ => .vUndefined

/-- JavaScript truthiness: `undefined`, `null`, `false`, `0`, `NaN` and
`""` are falsy; every object and array (even empty) is truthy. -/
def truthy : JsValue → Bool
  | .vUndefined => false
  | .vNull => false
  | .vBool b => b
  | .vNum q => decide (q ≠ 0)
  | .vNaN => false
  | .vStr s => decide (s ≠ "")
  | .vArr _ => true
  | .vObj _ => true

/-- JavaScript `a || b`: the first operand when truthy, otherwise the
second. -/
def jsOr (a b : JsValue) : JsValue := if truthy a then a else b

/-- Whether `typeof v === "object"` holds (objects, arrays and `null`). -/
def typeofObject : JsValue → Bool
  | .vObj _ => true
  | .vArr _ => true
  | .vNull => true
  | _ => false

/-- JavaScript `key in v` for the object case (false on non-objects as
used by the pipeline, which guards with a truthiness-and-typeof check). -/
def hasKey : JsValue → String → Bool
  | .vObj fs, k => (lookupField fs k).isSome
  | _, _ => false

/-- Whether the value is an array. -/
def isArr : JsValue → Bool
  | .vArr _ => true
  | _ => false

end JsValue

/-- Decimal digit character for `d < 10`. -/
def digitChar (d : Nat) : Char := Char.ofNat (48 + d)

/-- Digit list of a natural number (most significant first); fuel-driven
so the definition is structurally total. -/
def natDigitsAux : Nat → Nat → List Char
  | 0, _ => []
  | fuel + 1, n =>
    if n < 10 then [digitChar n]
    else natDigitsAux fuel (n / 10) ++ [digitChar (n % 10)]

/-- Decimal rendering of a natural number, as JavaScript renders integral
numbers. -/
def natRepr (n : Nat) : String := String.mk (natDigitsAux (n + 1) n)

/-- Fractional digits of `0 ≤ q < 1`, up to `fuel` digits (JavaScript
doubles always terminate within 17 significant digits; the pipeline's
values are short decimals). -/
def fracDigits : Nat → ℚ → List Char
  | 0, _ => []
  | fuel + 1, q =>
    if q = 0 then []
    else
      let q10 := q * 10
      digitChar q10.floor.toNat :: fracDigits fuel (q10 - q10.floor)

/-- Character rendering of a non-negative rational, in JavaScript's
decimal `Number.prototype.toString` style. -/
def ratCharsNonneg (q : ℚ) : List Char :=
  if q - q.floor = 0 then natDigitsAux (q.floor.toNat + 1) q.floor.toNat
  else natDigitsAux (q.floor.toNat + 1) q.floor.toNat ++ '.' :: fracDigits 30 (q - q.floor)

/-- Character rendering of a rational in JavaScript number-to-string
style. -/
def ratChars (q : ℚ) : List Char :=
  if q < 0 then '-' :: ratCharsNonneg (-q) else ratCharsNonneg q

/-- JavaScript `String(n)` for a (finite, decimal) number. -/
def ratToString (q : ℚ) : String := String.mk (ratChars q)

mutual

/-- JavaScript `String(v)` / template-literal stringification:
`undefined`/`null`/booleans/`NaN` by name, numbers in decimal, arrays
joined with commas (with null/undefined elements rendered empty), plain
objects as `"[object Object]"`. -/
def jsToString : JsValue → String
  | .vUndefined => "undefined"
  | .vNull => "null"
  | .vBool b => if b then "true" else "false"
  | .vNum q => ratToString q
  | .vNaN => "NaN"
  | .vStr s => s
  | .vArr xs => String.intercalate "," (arrElemStrings xs)
  | .vObj _ => "[object Object]"

/-- Element renderings used by JavaScript `Array.prototype.toString`
(null and undefined elements become the empty string). -/
def arrElemStrings : List JsValue → List String
  | [] => []
  | .vNull :: vs => "" :: arrElemStrings vs
  | .vUndefined :: vs => "" :: arrElemStrings vs
  | v :: vs => jsToString v :: arrElemStrings vs

end

/-- Whitespace as recognized by the pipeline's regex `\s` and `trim`
(ASCII whitespace; the model covers the character set the receipts code
actually meets). -/
def isJsWs (c : Char) : Bool :=
  c = ' ' || c = '\t' || c = '\n' || c = '\r' || c = '\x0b' || c = '\x0c'

/-- Drop leading JS whitespace. -/
def dropWs : List Char → List Char
  | [] => []
  | c :: cs => if isJsWs c then dropWs cs else c :: cs

/-- Strip whitespace from both ends (JavaScript `String.prototype.trim`
over the modelled whitespace set). -/
def trimChars (cs : List Char) : List Char :=
  ((dropWs ((dropWs cs).reverse)).reverse)

/-- String-level trim. -/
def jsTrimStr (s : String) : String := String.mk (trimChars s.toList)

/-- Value of a decimal digit character, if any. -/
def digitVal? (c : Char) : Option Nat :=
  if '0' ≤ c ∧ c ≤ '9' then some (c.toNat - 48) else none

/-- Split a leading run of decimal digits off a character list. -/
def takeDigits : List Char → List Nat × List Char
  | [] => ([], [])
  | c :: rest =>
    match digitVal? c with
    | some d =>
      let (ds, r) := takeDigits rest
      (d :: ds, r)
    | none => ([], c :: rest)

/-- Numeric value of a digit list read as an integer. -/
def digitsVal (ds : List Nat) : ℚ :=
  ds.foldl (fun acc d => acc * 10 + (d : ℚ)) 0

/-- Value of a digit list read as a fractional part. -/
def fracVal (ds : List Nat) : ℚ :=
  digitsVal ds / (10 : ℚ) ^ ds.length

/-- Parse the exponent suffix of a JavaScript numeric literal: optional
sign then one or more digits, consuming the whole remainder. -/
def parseExp (cs : List Char) : Option ℤ :=
  let (sign, rest) :=
    match cs with
    | '+' :: r => ((1 : ℤ), r)
    | '-' :: r => ((-1 : ℤ), r)
    | r => ((1 : ℤ), r)
  let (ds, r2) := takeDigits rest
  if ds = [] ∨ r2 ≠ [] then none
  else some (sign * (ds.foldl (fun acc d => acc * 10 + (d : ℤ)) 0))

/-- Parse an unsigned JavaScript decimal literal (`12`, `12.`, `12.5`,
`.5`, optional exponent), consuming the whole remainder. -/
def parseDec (cs : List Char) : Option ℚ :=
  let (ds1, r1) := takeDigits cs
  match r1 with
  | [] => if ds1 = [] then none else some (digitsVal ds1)
  | '.' :: r2 =>
    let (ds2, r3) := takeDigits r2
    if ds1 = [] ∧ ds2 = [] then none
    else
      match r3 with
      | [] => some (digitsVal ds1 + fracVal ds2)
      | e :: r4 =>
        if e = 'e' ∨ e = 'E' then
          (parseExp r4).map fun k => (digitsVal ds1 + fracVal ds2) * (10 : ℚ) ^ k
        else none
  | e :: r2 =>
    if (e = 'e' ∨ e = 'E') ∧ ds1 ≠ [] then
      (parseExp r2).map fun k => digitsVal ds1 * (10 : ℚ) ^ k
    else none

/-- JavaScript `Number(string)` over the finite-decimal fragment: the
trimmed empty string is `0`; otherwise an optionally signed decimal
literal; anything else is `NaN` (`none`). Hexadecimal and `Infinity`
forms are outside the modelled fragment (the pipeline's inputs are
decimal receipt amounts). -/
def strToNumber (s : String) : Option ℚ :=
  let cs := trimChars s.toList
  match cs with
  | [] => some 0
  | '+' :: rest => parseDec rest
  | '-' :: rest => (parseDec rest).map Neg.neg
  | _ => parseDec cs

/-- JavaScript `Number(v)` (ToNumber): `none` models `NaN`. Arrays and
objects convert through their string form, as ToPrimitive prescribes. -/
def jsToNumber : JsValue → Option ℚ
  | .vUndefined => none
  | .vNull => some 0
  | .vBool b => some (if b then 1 else 0)
  | .vNum q => some q
  | .vNaN => none
  | .vStr s => strToNumber s
  | .vArr xs => strToNumber (jsToString (.vArr xs))
  | .vObj _ => strToNumber "[object Object]"

/-! ### Output Extractor (`extractJsonFromCodeBlock`, agent.ts lines 45-60)

The source matches the text against the regex
`/` + "```" + `(?:json)?\s*([\s\S]*?)\s*` + "```" + `/i` and, when the
capture is truthy (non-empty), returns it trimmed; otherwise it falls
back to the widest brace-delimited span, and finally to stripping stray
fence markers.  `fenceCapture?` models the regex's leftmost match with
its greedy optional tag, greedy whitespace and lazy interior: the
interior runs from the first fence (after the optional case-insensitive
`json` tag and leading whitespace) to the next fence, with trailing
whitespace stripped. -/

/-- The backtick character. -/
def tick : Char := Char.ofNat 96

/-- Whether the list starts with three backticks. -/
def isFenceAt : List Char → Bool
  | b1 :: b2 :: b3 :: _ => b1 = tick && b2 = tick && b3 = tick
  | _ => false

/-- Suffix following the first triple-backtick fence, if any. -/
def findFence : List Char → Option (List Char)
  | [] => none
  | c :: cs => if isFenceAt (c :: cs) then some (cs.drop 2) else findFence cs

/-- Skip a case-insensitive `json` tag sitting immediately after the
opening fence (the regex's greedy `(?:json)?`). -/
def dropJsonTag (cs : List Char) : List Char :=
  match cs with
  | j :: s :: o :: n :: rest =>
    if j.toLower = 'j' ∧ s.toLower = 's' ∧ o.toLower = 'o' ∧ n.toLower = 'n' then rest
    else cs
  | _ => cs

/-- Characters up to (excluding) the next triple-backtick fence; `none`
when no closing fence exists. -/
def takeToFence : List Char → Option (List Char)
  | [] => none
  | c :: cs =>
    if isFenceAt (c :: cs) then some []
    else (takeToFence cs).map (c :: ·)

/-- Capture group of the fence regex on the text, if the regex matches:
the interior between the first fence (after optional `json` tag) and the
following fence, whitespace-stripped on both sides by the regex's `\s*`
anchors. -/
def fenceCapture? (text : String) : Option String :=
  match findFence text.toList with
  | none => none
  | some rest =>
    match takeToFence (dropWs (dropJsonTag rest)) with
    | none => none
    | some mid => some (String.mk ((dropWs mid.reverse).reverse))

/-- Match of `/\{[\s\S]*\}/` on the text: from the first opening brace
to the last closing brace after it, if both exist. -/
def braceMatch? (text : String) : Option String :=
  let suf := text.toList.dropWhile (· ≠ Char.ofNat 123)
  match (suf.reverse.dropWhile (· ≠ Char.ofNat 125)).reverse with
  | [] => none
  | c :: cs => some (String.mk (c :: cs))

/-- Global replacement of the alternation "```json" | "```" by the empty
string (the source's final, case-sensitive fallback cleanup). -/
def stripFenceChars : Nat → List Char → List Char
  | 0, cs => cs
  | _, [] => []
  | fuel + 1, c :: cs =>
    if isFenceAt (c :: cs) then
      match cs.drop 2 with
      | 'j' :: 's' :: 'o' :: 'n' :: rest => stripFenceChars fuel rest
      | rest => stripFenceChars fuel rest
    else c :: stripFenceChars fuel cs

/-- String-level fence-marker stripping. -/
def stripFenceMarkersStr (s : String) : String :=
  String.mk (stripFenceChars s.toList.length s.toList)

/-- Fallback part of the extractor (agent.ts lines 53-59): widest brace
span, else stripped-and-trimmed text. -/
def extractFallback (text : String) : String :=
  match braceMatch? text with
  | some m => jsTrimStr m
  | none => jsTrimStr (stripFenceMarkersStr text)

/-- The Output Extractor `extractJsonFromCodeBlock` (agent.ts lines
45-60).  The fenced branch is taken only when the capture is truthy
(non-empty), exactly as `if (match && match[1])` does. -/
def extractJsonFromCodeBlock (text : String) : String :=
  match fenceCapture? text with
  | some c => if c ≠ "" then jsTrimStr c else extractFallback text
  | none => extractFallback text

/-! ### Field Mapper (`mapGeminiToExpectedFormat`, agent.ts lines 141-214) -/

open JsValue

/-- Natural-number rendering used for `${itemCount}` interpolation. -/
def natStr (n : Nat) : String := natRepr n

/-- Mapping of one vendor line item onto canonical item keys (agent.ts
lines 207-212).  Note the quantity default is the number `1`. -/
def mapLineItem (item : JsValue) : JsValue :=
  .vObj [
    ("name", jsOr (getField item "description") (jsOr (getField item "name") (.vStr ""))),
    ("quantity", jsOr (getField item "qty") (jsOr (getField item "quantity") (.vNum 1))),
    ("unitPrice", jsOr (getField item "price") (jsOr (getField item "unit_price") (.vNum 0))),
    ("totalPrice", jsOr (getField item "subtotal") (jsOr (getField item "total") (jsOr (getField item "amount") (.vNum 0))))
  ]

/-- JavaScript `x > bound` for the dynamic `totalAmount` (relational
comparison coerces the operand with ToNumber; `NaN` compares false). -/
def jsGtNum (v : JsValue) (bound : ℚ) : Bool :=
  match jsToNumber v with
  | none => false
  | some q => decide (q > bound)

/-- Summary synthesis (agent.ts lines 147-197): deterministic template
over merchant, date, total, items and heuristic insight clauses. -/
def buildSummary (g : JsValue) : String :=
  let issuer := jsOr (getField g "issuer") (.vObj [])
  let issuedTo := jsOr (getField g "issued_to") (.vObj [])
  let lineItems := jsOr (getField g "line_items") (.vArr [])
  let merchantName := jsOr (getField issuer "name") (jsOr (getField g "merchant_name") (jsOr (getField issuedTo "name") (.vStr "Unknown Merchant")))
  let transactionDate := jsOr (getField g "date_issued") (jsOr (getField g "transaction_date") (jsOr (getField g "date") (.vStr "Unknown Date")))
  let totalAmount := jsOr (getField g "grand_total") (jsOr (getField g "total_amount") (jsOr (getField g "amount") (.vNum 0)))
  let currency := jsOr (getField g "currency") (.vStr "$")
  let items := match lineItems with | .vArr xs => xs | _ => []
  let itemCount := match lineItems with | .vArr xs => xs.length | _ => 0
  let s1 := "This receipt is from " ++ jsToString merchantName
  let addrChain := jsOr (getField g "merchant_address") (jsOr (getField issuer "address") (getField issuedTo "address"))
  let s2 := if truthy addrChain then s1 ++ " located at " ++ jsToString addrChain else s1
  let s3 := s2 ++ " for a transaction on " ++ jsToString transactionDate ++ " totaling " ++ jsToString currency ++ jsToString totalAmount ++ "."
  let s4 :=
    if itemCount > 0 then
      let base := s3 ++ " The purchase included " ++ natStr itemCount ++ " item" ++ (if itemCount > 1 then "s" else "")
      let withNames :=
        if itemCount ≤ 3 then
          let itemNames := (items.map (fun it => jsOr (getField it "description") (getField it "name"))).filter truthy
          if itemNames.length > 0 then
            base ++ " including " ++ String.intercalate ", " (itemNames.map jsToString)
          else base
        else
          let firstThree := ((items.take 3).map (fun it => jsOr (getField it "description") (getField it "name"))).filter truthy
          if firstThree.length > 0 then
            base ++ " including " ++ String.intercalate ", " (firstThree.map jsToString) ++
              " and " ++ natStr (itemCount - 3) ++ " other item" ++ (if itemCount - 3 > 1 then "s" else "")
          else base
      withNames ++ "."
    else s3
  let payChain := jsOr (getField (getField g "note") "bank_name") (getField g "payment_method")
  let insights :=
    (if jsGtNum totalAmount 100 then ["high-value purchase"] else []) ++
    (if itemCount > 5 then ["bulk shopping"] else []) ++
    (if truthy payChain then ["paid via " ++ jsToString payChain] else [])
  let s5 :=
    if insights.length > 0 then
      s4 ++ " This was a " ++ String.intercalate " and " insights ++ " transaction."
    else s4
  s5 ++ " The receipt has been automatically processed and the data extracted for your records."

/-- The Field Mapper `mapGeminiToExpectedFormat` (agent.ts lines
141-214): alias precedence chains via `||`, amount stringified with
`.toString()`, currency defaulting to `"$"`, synthesized summary, and
per-item alias mapping on a present items array. -/
def mapGeminiToExpectedFormat (g : JsValue) : JsValue :=
  let issuer := jsOr (getField g "issuer") (.vObj [])
  let issuedTo := jsOr (getField g "issued_to") (.vObj [])
  let lineItems := jsOr (getField g "line_items") (.vArr [])
  .vObj [
    ("merchantName", jsOr (getField issuer "name") (jsOr (getField g "merchant_name") (jsOr (getField issuedTo "name") (.vStr "")))),
    ("merchantAddress", jsOr (getField g "merchant_address") (jsOr (getField issuer "address") (jsOr (getField issuedTo "address") (.vStr "")))),
    ("merchantContact", jsOr (getField g "merchant_contact") (jsOr (getField g "merchant_phone") (.vStr ""))),
    ("transactionDate", jsOr (getField g "date_issued") (jsOr (getField g "transaction_date") (jsOr (getField g "date") (.vStr "")))),
    ("transactionAmount", .vStr (jsToString (jsOr (getField g "grand_total") (jsOr (getField g "total_amount") (jsOr (getField g "amount") (.vNum 0)))))),
    ("currency", jsOr (getField g "currency") (.vStr "$")),
    ("receiptSummary", .vStr (buildSummary g)),
    ("items", match lineItems with | .vArr xs => .vArr (xs.map mapLineItem) | _ => .vArr [])
  ]

/-! ### Schema Coercion and validation (`normalizeReceiptData`, agent.ts
lines 220-276) -/

/-- Escape of one character inside a JSON string literal (common cases;
used only for the audit field `rawExtractedData`). -/
def jsonEscapeChar (c : Char) : List Char :=
  if c = '"' then ['\\', '"']
  else if c = '\\' then ['\\', '\\']
  else if c = '\n' then ['\\', 'n']
  else if c = '\r' then ['\\', 'r']
  else if c = '\t' then ['\\', 't']
  else [c]

/-- JSON string literal for `s`. -/
def jsonQuote (s : String) : String :=
  String.mk ('"' :: (s.toList.foldr (fun c acc => jsonEscapeChar c ++ acc) ['"']))

mutual

/-- `JSON.stringify` (as used for `rawExtractedData`): `none` models the
JavaScript result `undefined` for a bare `undefined` input; `NaN`
serializes as `null`, undefined array elements as `null`, and object
entries with undefined values are dropped. -/
def jsonStringify : JsValue → Option String
  | .vUndefined => none
  | .vNull => some "null"
  | .vBool b => some (if b then "true" else "false")
  | .vNum q => some (ratToString q)
  | .vNaN => some "null"
  | .vStr s => some (jsonQuote s)
  | .vArr xs => some ("[" ++ String.intercalate "," (jsonArrElems xs) ++ "]")
  | .vObj fs => some ("\x7b" ++ String.intercalate "," (jsonObjFields fs) ++ "\x7d")

/-- Array element serializations (`undefined` becomes `null`). -/
def jsonArrElems : List JsValue → List String
  | [] => []
  | v :: vs =>
    ((jsonStringify v).getD "null") :: jsonArrElems vs

/-- Object field serializations (entries with `undefined` values are
omitted). -/
def jsonObjFields : List (String × JsValue) → List String
  | [] => []
  | (k, v) :: fs =>
    match jsonStringify v with
    | some s => (jsonQuote k ++ ":" ++ s) :: jsonObjFields fs
    | none => jsonObjFields fs

end

/-- The `toString` helper of `normalizeReceiptData` (agent.ts line 227):
strings pass through, `null`/`undefined` become `""`, anything else is
`String(v)`. -/
def toStringNorm : JsValue → String
  | .vStr s => s
  | .vNull => ""
  | .vUndefined => ""
  | v => jsToString v

/-- The `toNumber` helper of `normalizeReceiptData` (agent.ts lines
229-232): `Number(v)`, with `NaN` mapped to `0`. -/
def toNumberN (v : JsValue) : ℚ := (jsToNumber v).getD 0

/-- A fully coerced line item. -/
structure NormItem where
  name : String
  quantity : ℚ
  unitPrice : ℚ
  totalPrice : ℚ
deriving DecidableEq, Repr

/-- Field-level coercion of one item inside `toItems` (agent.ts lines
237-242). -/
def coerceItem (item : JsValue) : NormItem :=
  { name := toStringNorm (getField item "name"),
    quantity := toNumberN (getField item "quantity"),
    unitPrice := toNumberN (getField item "unitPrice"),
    totalPrice := toNumberN (getField item "totalPrice") }

/-- The filter predicate of `toItems` (agent.ts line 243): keep an item
iff any of its four coerced fields is truthy. -/
def itemKeep (it : NormItem) : Bool :=
  decide (it.name ≠ "") || decide (it.quantity ≠ 0) ||
    decide (it.unitPrice ≠ 0) || decide (it.totalPrice ≠ 0)

/-- The `toItems` helper (agent.ts lines 233-244): non-arrays give `[]`;
arrays are mapped through field coercion and filtered. -/
def toItems : JsValue → List NormItem
  | .vArr xs => (xs.map coerceItem).filter itemKeep
  | _ => []

/-- The normalized record built by `normalizeReceiptData` before its
validity check (agent.ts lines 246-258). -/
structure NormalizedReceipt where
  fileDisplayName : String
  receiptId : String
  merchantName : String
  merchantAddress : String
  merchantContact : String
  transactionDate : String
  transactionAmount : String
  receiptSummary : String
  currency : String
  items : List NormItem
  rawExtractedData : Option String
deriving DecidableEq, Repr

/-- Construction of the normalized record (agent.ts lines 246-258); the
`fileDisplayName` comes from the receipt's stored metadata, not from the
extracted data. -/
def buildNormalized (data : JsValue) (receiptId fileDisplayName : String)
    (originalData : JsValue) : NormalizedReceipt :=
  { fileDisplayName := fileDisplayName,
    receiptId := receiptId,
    merchantName := toStringNorm (getField data "merchantName"),
    merchantAddress := toStringNorm (getField data "merchantAddress"),
    merchantContact := toStringNorm (getField data "merchantContact"),
    transactionDate := toStringNorm (getField data "transactionDate"),
    transactionAmount := toStringNorm (getField data "transactionAmount"),
    receiptSummary := toStringNorm (getField data "receiptSummary"),
    currency := toStringNorm (getField data "currency"),
    items := toItems (getField data "items"),
    rawExtractedData := jsonStringify originalData }

/-- The all-required-fields-empty test (agent.ts lines 268-271) over the
required set `fileDisplayName, merchantName, merchantAddress,
merchantContact, transactionDate, transactionAmount, currency, items`
(a string is empty when `""`, the items array when `[]`). -/
def allEmptyCheck (n : NormalizedReceipt) : Bool :=
  decide (n.fileDisplayName = "") && decide (n.merchantName = "") &&
    decide (n.merchantAddress = "") && decide (n.merchantContact = "") &&
    decide (n.transactionDate = "") && decide (n.transactionAmount = "") &&
    decide (n.currency = "") && decide (n.items = [])

/-- `normalizeReceiptData` (agent.ts lines 220-276): build the coerced
record and reject it with the NoUsableDataError message when every
required field is empty. -/
def normalizeReceiptData (data : JsValue) (receiptId fileDisplayName : String)
    (originalData : JsValue) : Except String NormalizedReceipt :=
  let n := buildNormalized data receiptId fileDisplayName originalData
  if allEmptyCheck n then
    .error "No key receipt fields could be extracted from the document."
  else .ok n

/-! ### External store and persistence (`src/convex/receipts.ts`) -/

/-- A receipt document in the external store, with the fields written by
`storeReceipt` / `updateReceiptWithExtractedData`. -/
structure StoredReceipt where
  userId : String
  fileName : String
  status : String
  fileDisplayName : String
  merchantName : String
  merchantAddress : String
  merchantContact : String
  transactionDate : String
  transactionAmount : String
  currency : String
  receiptSummary : String
  items : List NormItem
deriving DecidableEq, Repr

/-- Lookup of a receipt document by id (`ctx.db.get`). -/
def dbLookup : List (String × StoredReceipt) → String → Option StoredReceipt
  | [], _ => none
  | (k, r) :: rest, id => if k = id then some r else dbLookup rest id

/-- Patch of the document with the given id (`ctx.db.patch`); ids are
unique, so the first match is replaced. -/
def dbSet : List (String × StoredReceipt) → String → StoredReceipt →
    List (String × StoredReceipt)
  | [], _, _ => []
  | (k, r) :: rest, id, nr => if k = id then (k, nr) :: rest else (k, r) :: dbSet rest id nr

/-- The `updateReceiptWithExtractedData` mutation (receipts.ts lines
158-203): fail when the id has no backing record, otherwise patch the
extracted fields, set `status` to `"processed"` and return the owner's
user id. -/
def updateReceiptWithExtractedData (db : List (String × StoredReceipt)) (id : String)
    (n : NormalizedReceipt) : Except String (List (String × StoredReceipt) × String) :=
  match dbLookup db id with
  | none => .error "Unauthorized: Receipt not found."
  | some r0 =>
    .ok (dbSet db id
      { r0 with
        fileDisplayName := n.fileDisplayName,
        merchantName := n.merchantName,
        merchantAddress := n.merchantAddress,
        merchantContact := n.merchantContact,
        transactionDate := n.transactionDate,
        transactionAmount := n.transactionAmount,
        currency := n.currency,
        receiptSummary := n.receiptSummary,
        items := n.items,
        status := "processed" }, r0.userId)

/-- Result object of the persistence helper. -/
structure SaveResult where
  success : Bool
  dataReceiptId : Option String
  error : Option String
deriving DecidableEq, Repr

/-- Modelled from the spec: `saveToDatabaseWithGemini` lives in
`src/inngest/agents/databaseAgent.ts`, which is not under `src/`; per
the spec's persistence contract (sections 4.4, 6 and 7) it performs the
single `updateReceiptWithExtractedData` commit for the normalized record
and converts commit failure into a `success: false` result instead of
throwing.  Returns the updated store, the result object, and the number
of commits actually applied. -/
def saveToDatabaseWithGemini (db : List (String × StoredReceipt))
    (n : NormalizedReceipt) : List (String × StoredReceipt) × SaveResult × Nat :=
  match updateReceiptWithExtractedData db n.receiptId n with
  | .ok (db2, _ownerId) =>
    (db2, { success := true, dataReceiptId := some n.receiptId, error := none }, 1)
  | .error e =>
    (db, { success := false, dataReceiptId := none, error := some e }, 0)

/-! ### Extraction Orchestrator (`extractAndSavePDF`, agent.ts lines
62-298) -/

/-- Parsing of the extracted data out of the agent-network state
(agent.ts lines 97-139, the body of the parse `try`): reject a missing,
non-array or empty results list; prefer the last tool call's `data`
payload; otherwise parse a string output through the Output Extractor
and `JSON.parse` (supplied as the oracle `jsonParse`), or accept an
object output directly. -/
def parseStage (results : JsValue) (jsonParse : String → Except String JsValue) :
    Except String JsValue :=
  match results with
  | .vArr (x :: xs) =>
    let lastResult := (x :: xs).getLastD .vUndefined
    match getField lastResult "toolCalls" with
    | .vArr (t :: ts) =>
      let toolCall := (t :: ts).getLastD .vUndefined
      let content := getField toolCall "content"
      if truthy content && typeofObject content && hasKey content "data" then
        .ok (getField content "data")
      else .error "No data found in tool call result"
    | _ =>
      let out := getField lastResult "output"
      if truthy out then
        match out with
        | .vStr s => jsonParse (extractJsonFromCodeBlock s)
        | v =>
          if typeofObject v then .ok v
          else .error "Unexpected output format from Gemini agent"
      else .error "No output or tool calls found in agent result"
  | _ => .error "No results found in agent network state"

/-- Environment of one job invocation: the external store's state,
whether the metadata query transport fails, the agent network's outcome
(`state.results` on success), and the `JSON.parse` oracle. -/
structure Env where
  db : List (String × StoredReceipt)
  queryFails : Bool
  networkRun : Except String JsValue
  jsonParse : String → Except String JsValue

/-- Value returned over the job boundary: either one of the literal
`\x7b error: ... \x7d` objects of the catch branches, or the persistence
helper's result. -/
inductive JobResult where
  | errorOnly (msg : String)
  | saveRes (r : SaveResult)
deriving DecidableEq, Repr

/-- Observable outcome of one job invocation: returned value, final
store state, and number of persistence commits applied. -/
structure JobOutput where
  result : JobResult
  db : List (String × StoredReceipt)
  commits : Nat
deriving DecidableEq, Repr

/-- The orchestrated job `extractAndSavePDF` (agent.ts lines 62-298):
metadata lookup, agent-network run, output parsing, field mapping,
normalization/validation, then the persistence call.  Each stage failure
is caught and returned as an error-only object; the in-memory agent
key-value bookkeeping of lines 287-295 has no observable effect and is
omitted. -/
def extractAndSavePDF (env : Env) (receiptId : String) : JobOutput :=
  if env.queryFails then
    { result := .errorOnly "Failed to fetch receipt information.", db := env.db, commits := 0 }
  else
    match dbLookup env.db receiptId with
    | none => { result := .errorOnly "Receipt not found.", db := env.db, commits := 0 }
    | some receiptInfo =>
      match env.networkRun with
      | .error _ =>
        { result := .errorOnly "Failed to process PDF with AI agent.", db := env.db, commits := 0 }
      | .ok results =>
        match parseStage results env.jsonParse with
        | .error _ =>
          { result := .errorOnly "Failed to extract data from receipt.", db := env.db, commits := 0 }
        | .ok extractedData =>
          let mappedData := mapGeminiToExpectedFormat extractedData
          match normalizeReceiptData mappedData receiptId receiptInfo.fileName extractedData with
          | .error _ =>
            { result := .errorOnly "Failed to extract any usable receipt data.",
              db := env.db, commits := 0 }
          | .ok normalizedData =>
            let s := saveToDatabaseWithGemini env.db normalizedData
            { result := .saveRes s.2.1, db := s.1, commits := s.2.2 }

/-- Modelled from the spec: JavaScript shape of the persistence helper's
result object (`success`, optional `data.receiptId`, optional `error`),
as read by the caller's `saveResult.success && saveResult.data && ...`
test. -/
def saveResultToJs (r : SaveResult) : JsValue :=
  .vObj ([("success", .vBool r.success)] ++
    (match r.dataReceiptId with
     | some i => [("data", .vObj [("receiptId", .vStr i)])]
     | none => []) ++
    (match r.error with
     | some e => [("error", .vStr e)]
     | none => []))

/-- JavaScript shape of the value the job returns: the catch branches
return object literals holding exactly one `error` property. -/
def jobResultToJs : JobResult → JsValue
  | .errorOnly m => .vObj [("error", .vStr m)]
  | .saveRes r => saveResultToJs r

/-- Substring test on character lists (used to state what the
synthesized summary contains). -/
def hasPrefixCl : List Char → List Char → Bool
  | [], _ => true
  | _ :: _, [] => false
  | p :: ps, c :: cs => p = c && hasPrefixCl ps cs

/-- Whether `needle` occurs inside `hay`. -/
def containsSub : List Char → List Char → Bool
  | [], needle => hasPrefixCl needle []
  | c :: cs, needle => hasPrefixCl needle (c :: cs) || containsSub cs needle

/-- Whether the string `sub` occurs inside `s`. -/
def strContains (s sub : String) : Bool := containsSub s.toList sub.toList

/-! ### Concrete inputs used by the claim theorems -/

/-- Vendor record whose amount and currency aliases are empty arrays:
both are truthy, so they win their alias chains, yet both stringify to
the empty string.  Every canonical field of its mapped output is empty. -/
def c1G : JsValue := .vObj [("grand_total", .vArr []), ("currency", .vArr [])]

/-- A stored receipt still pending extraction, with a real file name. -/
def pendingReceipt : StoredReceipt :=
  { userId := "u1", fileName := "receipt.pdf", status := "pending", fileDisplayName := "",
    merchantName := "", merchantAddress := "", merchantContact := "", transactionDate := "",
    transactionAmount := "", currency := "", receiptSummary := "", items := [] }

/-- A stored receipt whose file name is empty. -/
def pendingReceiptNoName : StoredReceipt :=
  { pendingReceipt with fileName := "" }

/-- Job environment whose agent network yields `c1G` as an object output
and whose stored receipt has a non-empty file name. -/
def c1Env : Env :=
  { db := [("r1", pendingReceipt)], queryFails := false,
    networkRun := .ok (.vArr [.vObj [("output", c1G)]]),
    jsonParse := fun _ => .error "unused" }

/-- Same environment but with an empty stored file name. -/
def c1EnvNoName : Env :=
  { db := [("r1", pendingReceiptNoName)], queryFails := false,
    networkRun := .ok (.vArr [.vObj [("output", c1G)]]),
    jsonParse := fun _ => .error "unused" }

/-- Environment whose metadata query fails at transport level. -/
def c3Env : Env :=
  { db := [], queryFails := true, networkRun := .error "network down",
    jsonParse := fun _ => .error "unused" }

/-- Environment for a fully successful run: the agent's object output is
a minimal vendor record whose mapped amount is the non-empty string
`"0"`, so normalization accepts it. -/
def c4Env : Env :=
  { db := [("r1", pendingReceipt)], queryFails := false,
    networkRun := .ok (.vArr [.vObj [("output", .vObj [("merchant_name", .vStr "Acme")])]]),
    jsonParse := fun _ => .error "unused" }

/-- Environment that fails at the metadata query. -/
def c4FailEnv : Env :=
  { db := [("r1", pendingReceipt)], queryFails := true, networkRun := .error "down",
    jsonParse := fun _ => .error "unused" }

/-- The C7 scenario: merchant Acme, date 2024-01-01, total 50, currency
dollar, two items named A and B. -/
def c7G : JsValue := .vObj [
  ("merchant_name", .vStr "Acme"),
  ("date_issued", .vStr "2024-01-01"),
  ("grand_total", .vNum 50),
  ("currency", .vStr "$"),
  ("line_items", .vArr [.vObj [("name", .vStr "A")], .vObj [("name", .vStr "B")]])]

/-- Vendor record with a single line item carrying no quantity alias. -/
def c8G : JsValue := .vObj [("line_items", .vArr [.vObj []])]

/-- Vendor record whose only field is an empty-array `grand_total`. -/
def c10G : JsValue := .vObj [("grand_total", .vArr [])]

/-- Fully coerced item with every field falsy. -/
def c6EmptyItem : JsValue :=
  .vObj [("name", .vStr ""), ("quantity", .vNum 0), ("unitPrice", .vNum 0), ("totalPrice", .vNum 0)]

/-- Item whose only truthy field is the name `"Soda"`. -/
def c6SodaItem : JsValue :=
  .vObj [("name", .vStr "Soda"), ("quantity", .vNum 0), ("unitPrice", .vNum 0), ("totalPrice", .vNum 0)]

/-- Text with an all-whitespace fenced interior followed by a JSON
object: the fence regex matches with an empty (falsy) capture. -/
def c2S : String := "``` ```\x7b\"a\":1\x7d"

/-! ### Shared lemmas -/

theorem dropWs_head_not_ws (l : List Char) :
    ∀ c cs, dropWs l = c :: cs → isJsWs c = false := by
  induction l with
  | nil => intro c cs h; simp [dropWs] at h
  | cons a as ih =>
    intro c cs h
    by_cases hw : isJsWs a
    · rw [dropWs, if_pos hw] at h
      exact ih c cs h
    · rw [dropWs, if_neg hw] at h
      injection h with h1 _
      subst h1
      simpa using hw

theorem dropWs_eq_self (c : Char) (cs : List Char) (h : isJsWs c = false) :
    dropWs (c :: cs) = c :: cs := by
  rw [dropWs, if_neg (by simp [h])]

theorem dropWs_idem (l : List Char) : dropWs (dropWs l) = dropWs l := by
  cases h : dropWs l with
  | nil => rfl
  | cons c cs => exact dropWs_eq_self c cs (dropWs_head_not_ws l c cs h)

theorem dropWs_suffix (l : List Char) : dropWs l <:+ l := by
  induction l with
  | nil => simp [dropWs]
  | cons a as ih =>
    by_cases hw : isJsWs a
    · rw [dropWs, if_pos hw]
      exact ih.trans (List.suffix_cons a as)
    · rw [dropWs, if_neg hw]

theorem trimChars_idem (l : List Char) : trimChars (trimChars l) = trimChars l := by
  unfold trimChars
  cases hv : dropWs ((dropWs l).reverse) with
  | nil => simp [dropWs]
  | cons c cs =>
    have hc : isJsWs c = false := dropWs_head_not_ws _ c cs hv
    obtain ⟨d, ds, hd⟩ : ∃ d ds, dropWs l = d :: ds := by
      cases h0 : dropWs l with
      | nil => rw [h0] at hv; simp [dropWs] at hv
      | cons d ds => exact ⟨d, ds, rfl⟩
    have hdws : isJsWs d = false := dropWs_head_not_ws l d ds hd
    have hlast : (c :: cs).getLast? = some d := by
      obtain ⟨t, ht⟩ := dropWs_suffix ((dropWs l).reverse)
      rw [hv] at ht
      calc (c :: cs).getLast? = (t ++ c :: cs).getLast? :=
            (List.getLast?_append_of_ne_nil t (by simp)).symm
        _ = ((dropWs l).reverse).getLast? := by rw [ht]
        _ = (dropWs l).head? := List.getLast?_reverse _
        _ = some d := by rw [hd]; rfl
    have hrev : dropWs ((c :: cs).reverse) = (c :: cs).reverse := by
      cases hr : (c :: cs).reverse with
      | nil => simp at hr
      | cons e es =>
        have hh : ((c :: cs).reverse).head? = some d := by
          rw [List.head?_reverse]; exact hlast
        rw [hr] at hh
        simp only [List.head?_cons, Option.some.injEq] at hh
        exact dropWs_eq_self e es (by rw [hh]; exact hdws)
    rw [hrev, List.reverse_reverse, dropWs_eq_self c cs hc]

theorem jsTrimStr_idem (s : String) : jsTrimStr (jsTrimStr s) = jsTrimStr s := by
  unfold jsTrimStr
  exact congrArg String.mk (trimChars_idem s.toList)

theorem natDigitsAux_ne_nil (fuel n : Nat) : natDigitsAux (fuel + 1) n ≠ [] := by
  rw [natDigitsAux]
  split <;> simp

theorem ratChars_ne_nil (q : ℚ) : ratChars q ≠ [] := by
  unfold ratChars ratCharsNonneg
  split
  · simp
  · split
    · exact natDigitsAux_ne_nil _ _
    · simp [natDigitsAux_ne_nil]

theorem ratToString_ne_empty (q : ℚ) : ratToString q ≠ "" := by
  intro h
  exact ratChars_ne_nil q (congrArg String.data h)

theorem jsToString_truthy_ne_empty (v : JsValue) (ha : v.isArr = false)
    (ht : v.truthy = true) : jsToString v ≠ "" := by
  cases v with
  | vUndefined => simp [JsValue.truthy] at ht
  | vNull => simp [JsValue.truthy] at ht
  | vBool b =>
    cases b
    · simp [JsValue.truthy] at ht
    · simp [jsToString]
  | vNum q => exact ratToString_ne_empty q
  | vNaN => simp [JsValue.truthy] at ht
  | vStr s => simpa [JsValue.truthy, jsToString] using ht
  | vArr xs => simp [JsValue.isArr] at ha
  | vObj fs => simp [jsToString]

theorem toStringNorm_truthy_ne_empty (v : JsValue) (ha : v.isArr = false)
    (ht : v.truthy = true) : toStringNorm v ≠ "" := by
  cases v with
  | vUndefined => simp [JsValue.truthy] at ht
  | vNull => simp [JsValue.truthy] at ht
  | vBool b =>
    cases b
    · simp [JsValue.truthy] at ht
    · simp [toStringNorm, jsToString]
  | vNum q => exact ratToString_ne_empty q
  | vNaN => simp [JsValue.truthy] at ht
  | vStr s => simpa [JsValue.truthy, toStringNorm] using ht
  | vArr xs => simp [JsValue.isArr] at ha
  | vObj fs => simp [toStringNorm, jsToString]

theorem jsOr_of_truthy (a b : JsValue) (h : a.truthy = true) : jsOr a b = a := by
  simp [JsValue.jsOr, h]

theorem jsOr_of_falsy (a b : JsValue) (h : a.truthy = false) : jsOr a b = b := by
  simp [JsValue.jsOr, h]

theorem dbLookup_dbSet_self (db : List (String × StoredReceipt)) (id : String)
    (nr r0 : StoredReceipt) (h : dbLookup db id = some r0) :
    dbLookup (dbSet db id nr) id = some nr := by
  induction db with
  | nil => simp [dbLookup] at h
  | cons p rest ih =>
    obtain ⟨k, r⟩ := p
    by_cases hk : k = id
    · subst hk
      simp [dbLookup, dbSet]
    · rw [dbLookup, if_neg hk] at h
      rw [dbSet, if_neg hk, dbLookup, if_neg hk]
      exact ih h

theorem mapGemini_transactionAmount (g : JsValue) :
    getField (mapGeminiToExpectedFormat g) "transactionAmount" =
      .vStr (jsToString (jsOr (getField g "grand_total")
        (jsOr (getField g "total_amount") (jsOr (getField g "amount") (.vNum 0))))) := rfl

theorem mapGemini_currency (g : JsValue) :
    getField (mapGeminiToExpectedFormat g) "currency" =
      jsOr (getField g "currency") (.vStr "$") := rfl

theorem jsToString_orChain3_ne_empty (a b c : JsValue) (ha : a.isArr = false)
    (hb : b.isArr = false) (hc : c.isArr = false) :
    jsToString (jsOr a (jsOr b (jsOr c (.vNum 0)))) ≠ "" := by
  cases t1 : a.truthy with
  | true =>
    rw [jsOr_of_truthy _ _ t1]
    exact jsToString_truthy_ne_empty a ha t1
  | false =>
    rw [jsOr_of_falsy _ _ t1]
    cases t2 : b.truthy with
    | true =>
      rw [jsOr_of_truthy _ _ t2]
      exact jsToString_truthy_ne_empty b hb t2
    | false =>
      rw [jsOr_of_falsy _ _ t2]
      cases t3 : c.truthy with
      | true =>
        rw [jsOr_of_truthy _ _ t3]
        exact jsToString_truthy_ne_empty c hc t3
      | false =>
        rw [jsOr_of_falsy _ _ t3]
        exact ratToString_ne_empty 0

theorem toStringNorm_currencyChain_ne_empty (d : JsValue) (hd : d.isArr = false) :
    toStringNorm (jsOr d (.vStr "$")) ≠ "" := by
  cases t : d.truthy with
  | true =>
    rw [jsOr_of_truthy _ _ t]
    exact toStringNorm_truthy_ne_empty d hd t
  | false =>
    rw [jsOr_of_falsy _ _ t]
    simp [toStringNorm]

theorem mapGemini_items (g : JsValue) :
    getField (mapGeminiToExpectedFormat g) "items" =
      (match jsOr (getField g "line_items") (.vArr []) with
       | .vArr ys => JsValue.vArr (ys.map mapLineItem)
       | _ => JsValue.vArr []) := rfl

theorem mapLineItem_quantity (item : JsValue) :
    getField (mapLineItem item) "quantity" =
      jsOr (getField item "qty") (jsOr (getField item "quantity") (.vNum 1)) := rfl

theorem normalize_ok_receiptId (data : JsValue) (id fdn : String) (orig : JsValue)
    (n : NormalizedReceipt) (h : normalizeReceiptData data id fdn orig = .ok n) :
    n.receiptId = id := by
  have h2 : (if allEmptyCheck (buildNormalized data id fdn orig) then
      (Except.error "No key receipt fields could be extracted from the document." :
        Except String NormalizedReceipt)
    else .ok (buildNormalized data id fdn orig)) = .ok n := h
  clear h
  rename' h2 => h
  split at h
  · exact absurd h (by simp)
  · injection h with h1
    rw [← h1]
    rfl

theorem extractFallback_trimmed (s : String) :
    jsTrimStr (extractFallback s) = extractFallback s := by
  unfold extractFallback
  cases braceMatch? s with
  | some m => exact jsTrimStr_idem m
  | none => exact jsTrimStr_idem _

/-! ### Claim theorems -/

/-- C2 (counterexample): on `c2S` the fence regex matches with capture
`""` (the interior of the fenced block trims to empty), yet the
extractor returns the brace span `\x7b"a":1\x7d` instead of the trimmed
interior `""` — so the claimed unconditional three-step preference order
fails. -/
theorem C2_counterexample :
    fenceCapture? c2S = some "" ∧
    extractJsonFromCodeBlock c2S = "\x7b\"a\":1\x7d" ∧
    ("\x7b\"a\":1\x7d" : String) ≠ jsTrimStr "" := by
  refine ⟨by decide, by decide, by decide⟩

/-- C2 (amended): the extractor returns the trimmed fenced interior
only when that interior is non-empty; with no fence match or an empty
capture it returns the widest brace span trimmed, and failing that the
fence-stripped trimmed text; the three example mappings hold. -/
theorem C2_extractor_order :
    (∀ s t, fenceCapture? s = some t → t ≠ "" → extractJsonFromCodeBlock s = jsTrimStr t) ∧
    (∀ s u, (fenceCapture? s = none ∨ fenceCapture? s = some "") → braceMatch? s = some u →
      extractJsonFromCodeBlock s = jsTrimStr u) ∧
    (∀ s, (fenceCapture? s = none ∨ fenceCapture? s = some "") → braceMatch? s = none →
      extractJsonFromCodeBlock s = jsTrimStr (stripFenceMarkersStr s)) ∧
    extractJsonFromCodeBlock "```json\n\x7b\"a\":1\x7d\n```" = "\x7b\"a\":1\x7d" ∧
    extractJsonFromCodeBlock "noise \x7b\"a\":1\x7d noise" = "\x7b\"a\":1\x7d" ∧
    extractJsonFromCodeBlock "```\ngarbage```" = "garbage" := by
  refine ⟨?_, ?_, ?_, by decide, by decide, by decide⟩
  · intro s t hf ht
    unfold extractJsonFromCodeBlock
    rw [hf]
    simp [ht]
  · intro s u hf hb
    unfold extractJsonFromCodeBlock extractFallback
    rcases hf with h | h
    · rw [h, hb]
    · rw [h, hb]; simp
  · intro s hf hb
    unfold extractJsonFromCodeBlock extractFallback
    rcases hf with h | h
    · rw [h, hb]
    · rw [h, hb]; simp

/-- C2 (witness): the non-empty-capture branch applied to a concrete
fenced text. -/
theorem C2_extractor_order_witness :
    fenceCapture? "```x```" = some "x" ∧
    extractJsonFromCodeBlock "```x```" = jsTrimStr "x" :=
  ⟨by decide, C2_extractor_order.1 "```x```" "x" (by decide) (by decide)⟩

/-- C5: the numeric coercion `toNumber` yields `Number(v)` when that is
a number and `0` when it is `NaN`; `"12.50"`, `"12"` and `"abc"` coerce
to `12.5`, `12` and `0`. -/
theorem C5_numeric_coercion :
    (∀ v, jsToNumber v = none → toNumberN v = 0) ∧
    (∀ v q, jsToNumber v = some q → toNumberN v = q) ∧
    toNumberN (.vStr "12.50") = 12.5 ∧
    toNumberN (.vStr "12") = 12 ∧
    toNumberN (.vStr "abc") = 0 := by
  refine ⟨fun v h => by simp [toNumberN, h], fun v q h => by simp [toNumberN, h],
    by with_unfolding_all decide, by with_unfolding_all decide, by with_unfolding_all decide⟩

/-- C5 (witness): the two coercion rules applied at concrete values. -/
theorem C5_numeric_coercion_witness :
    toNumberN .vNaN = 0 ∧ toNumberN (.vNum 7) = 7 :=
  ⟨C5_numeric_coercion.1 .vNaN rfl, C5_numeric_coercion.2.1 (.vNum 7) 7 rfl⟩

/-- C6: item-list coercion maps every element through field coercion
and drops an item exactly when all four coerced fields are falsy; the
all-empty item is dropped and the `"Soda"` item is kept. -/
theorem C6_item_filtering :
    (∀ v : JsValue, v.isArr = false → toItems v = []) ∧
    (∀ xs, toItems (.vArr xs) = (xs.map coerceItem).filter itemKeep) ∧
    (∀ it, itemKeep it = false ↔
      (it.name = "" ∧ it.quantity = 0 ∧ it.unitPrice = 0 ∧ it.totalPrice = 0)) ∧
    toItems (.vArr [c6EmptyItem]) = [] ∧
    toItems (.vArr [c6SodaItem]) =
      [{ name := "Soda", quantity := 0, unitPrice := 0, totalPrice := 0 }] := by
  refine ⟨?_, fun xs => rfl, ?_, by with_unfolding_all decide, by with_unfolding_all decide⟩
  · intro v hv
    cases v <;> simp_all [toItems, JsValue.isArr]
  · intro it
    simp [itemKeep, and_assoc]

/-- C6 (witness): the non-array rule and the drop characterization at
concrete inputs. -/
theorem C6_item_filtering_witness :
    toItems .vNull = [] ∧
    (itemKeep { name := "", quantity := 0, unitPrice := 0, totalPrice := 0 } = false ↔
      (("" : String) = "" ∧ (0 : ℚ) = 0 ∧ (0 : ℚ) = 0 ∧ (0 : ℚ) = 0)) :=
  ⟨C6_item_filtering.1 .vNull rfl,
   C6_item_filtering.2.2.1 { name := "", quantity := 0, unitPrice := 0, totalPrice := 0 }⟩

/-- C9: the Output Extractor is a total pure function of its input
string in this model; every branch returns an already-trimmed string
(trimming it again changes nothing), and the empty input yields the
empty string. -/
theorem C9_extractor_total :
    (∀ s : String, jsTrimStr (extractJsonFromCodeBlock s) = extractJsonFromCodeBlock s) ∧
    extractJsonFromCodeBlock "" = "" := by
  constructor
  · intro s
    unfold extractJsonFromCodeBlock
    cases fenceCapture? s with
    | some c =>
      show jsTrimStr (if c ≠ "" then jsTrimStr c else extractFallback s) =
        (if c ≠ "" then jsTrimStr c else extractFallback s)
      by_cases hc : c = ""
      · rw [if_neg (by simp [hc])]
        exact extractFallback_trimmed s
      · rw [if_pos hc]
        exact jsTrimStr_idem c
    | none =>
      show jsTrimStr (extractFallback s) = extractFallback s
      exact extractFallback_trimmed s
  · decide

/-- C7: for the Acme scenario (total 50, currency `$`, two items `A`
and `B`) the synthesized summary contains the merchant, the date,
`$50` and both item names, and no high-value clause. -/
theorem C7_summary_scenario :
    getField (mapGeminiToExpectedFormat c7G) "receiptSummary" = .vStr (buildSummary c7G) ∧
    strContains (buildSummary c7G) "Acme" = true ∧
    strContains (buildSummary c7G) "2024-01-01" = true ∧
    strContains (buildSummary c7G) "$50" = true ∧
    strContains (buildSummary c7G) "A" = true ∧
    strContains (buildSummary c7G) "B" = true ∧
    strContains (buildSummary c7G) "high-value" = false := by
  refine ⟨rfl, by with_unfolding_all decide, by with_unfolding_all decide,
    by with_unfolding_all decide, by with_unfolding_all decide,
    by with_unfolding_all decide, by with_unfolding_all decide⟩

/-- C8 (counterexample): a line item with neither `qty` nor `quantity`
maps to canonical quantity `1`, which is neither the number `0` nor the
empty string — the claimed empty/zero default is wrong. -/
theorem C8_counterexample :
    getField (mapGeminiToExpectedFormat c8G) "items" = .vArr [mapLineItem (.vObj [])] ∧
    getField (mapLineItem (.vObj [])) "quantity" = .vNum 1 ∧
    JsValue.vNum 1 ≠ .vNum 0 ∧ JsValue.vNum 1 ≠ .vStr "" := by
  refine ⟨rfl, rfl, by simp, by simp⟩

/-- C8 (amended): when a line-item entry of a present vendor items
array has neither the `qty` nor the `quantity` alias, the Field Mapper
maps the array elementwise and the entry's canonical quantity defaults
to the number `1`. -/
theorem C8_quantity_default (g : JsValue) (xs : List JsValue) (item : JsValue)
    (hli : getField g "line_items" = .vArr xs) (_hmem : item ∈ xs)
    (hqty : getField item "qty" = .vUndefined)
    (hquantity : getField item "quantity" = .vUndefined) :
    getField (mapGeminiToExpectedFormat g) "items" = .vArr (xs.map mapLineItem) ∧
    getField (mapLineItem item) "quantity" = .vNum 1 := by
  constructor
  · rw [mapGemini_items, hli, jsOr_of_truthy (.vArr xs) (.vArr []) rfl]
  · rw [mapLineItem_quantity, hqty, hquantity,
      jsOr_of_falsy .vUndefined (jsOr .vUndefined (.vNum 1)) rfl,
      jsOr_of_falsy .vUndefined (.vNum 1) rfl]

/-- C8 (witness): the amended default at the concrete record `c8G`. -/
theorem C8_quantity_default_witness :
    getField (mapGeminiToExpectedFormat c8G) "items" = .vArr ([JsValue.vObj []].map mapLineItem) ∧
    getField (mapLineItem (.vObj [])) "quantity" = .vNum 1 :=
  C8_quantity_default c8G [.vObj []] (.vObj []) rfl (by simp) rfl rfl

/-- C10 (counterexample): an empty-array `grand_total` is truthy, wins
the alias chain, and stringifies to `""`, so the mapped
`transactionAmount` is the empty (falsy) string — the claimed invariant
fails. -/
theorem C10_counterexample :
    getField (mapGeminiToExpectedFormat c10G) "transactionAmount" = .vStr "" ∧
    JsValue.truthy (getField (mapGeminiToExpectedFormat c10G) "transactionAmount") = false := by
  exact ⟨rfl, rfl⟩

/-- C10 (amended): whenever none of the amount aliases and the currency
value is an array, the mapped `transactionAmount` is a non-empty string
(`"0"` when every alias is falsy), the mapped currency is `"$"` when the
vendor currency is falsy, and consequently the normalization's all-empty
check can never fire (the record always passes validation). -/
theorem C10_amount_currency_nonempty (g : JsValue)
    (h1 : (getField g "grand_total").isArr = false)
    (h2 : (getField g "total_amount").isArr = false)
    (h3 : (getField g "amount").isArr = false)
    (h4 : (getField g "currency").isArr = false) :
    getField (mapGeminiToExpectedFormat g) "transactionAmount" ≠ .vStr "" ∧
    (JsValue.truthy (getField g "grand_total") = false →
      JsValue.truthy (getField g "total_amount") = false →
      JsValue.truthy (getField g "amount") = false →
      getField (mapGeminiToExpectedFormat g) "transactionAmount" = .vStr "0") ∧
    (JsValue.truthy (getField g "currency") = false →
      getField (mapGeminiToExpectedFormat g) "currency" = .vStr "$") ∧
    (∀ id fdn : String,
      (buildNormalized (mapGeminiToExpectedFormat g) id fdn g).transactionAmount ≠ "" ∧
      (buildNormalized (mapGeminiToExpectedFormat g) id fdn g).currency ≠ "" ∧
      allEmptyCheck (buildNormalized (mapGeminiToExpectedFormat g) id fdn g) = false ∧
      (normalizeReceiptData (mapGeminiToExpectedFormat g) id fdn g).isOk = true) := by
  have hamt := jsToString_orChain3_ne_empty (getField g "grand_total")
    (getField g "total_amount") (getField g "amount") h1 h2 h3
  refine ⟨?_, ?_, ?_, ?_⟩
  · rw [mapGemini_transactionAmount]
    intro h
    injection h with h0
    exact hamt h0
  · intro t1 t2 t3
    rw [mapGemini_transactionAmount, jsOr_of_falsy _ _ t1, jsOr_of_falsy _ _ t2,
      jsOr_of_falsy _ _ t3]
    have h0 : jsToString (JsValue.vNum 0) = "0" := by with_unfolding_all decide
    rw [h0]
  · intro t
    rw [mapGemini_currency, jsOr_of_falsy _ _ t]
  · intro id fdn
    have hta : (buildNormalized (mapGeminiToExpectedFormat g) id fdn g).transactionAmount ≠ "" := by
      show toStringNorm (getField (mapGeminiToExpectedFormat g) "transactionAmount") ≠ ""
      rw [mapGemini_transactionAmount]
      exact hamt
    have hcur : (buildNormalized (mapGeminiToExpectedFormat g) id fdn g).currency ≠ "" := by
      show toStringNorm (getField (mapGeminiToExpectedFormat g) "currency") ≠ ""
      rw [mapGemini_currency]
      exact toStringNorm_currencyChain_ne_empty _ h4
    have hdec : decide ((buildNormalized (mapGeminiToExpectedFormat g) id fdn g).transactionAmount = "") = false :=
      decide_eq_false hta
    have hall : allEmptyCheck (buildNormalized (mapGeminiToExpectedFormat g) id fdn g) = false := by
      unfold allEmptyCheck
      simp [hdec]
    exact ⟨hta, hcur, hall, by unfold normalizeReceiptData; simp [hall, Except.isOk, Except.toBool]⟩

/-- C10 (witness): the amended invariant at the empty vendor record. -/
theorem C10_amount_currency_nonempty_witness :
    getField (mapGeminiToExpectedFormat (.vObj [])) "transactionAmount" ≠ .vStr "" ∧
    getField (mapGeminiToExpectedFormat (.vObj [])) "transactionAmount" = .vStr "0" ∧
    getField (mapGeminiToExpectedFormat (.vObj [])) "currency" = .vStr "$" ∧
    allEmptyCheck (buildNormalized (mapGeminiToExpectedFormat (.vObj [])) "r1" "f" (.vObj [])) =
      false := by
  have h := C10_amount_currency_nonempty (.vObj []) rfl rfl rfl rfl
  exact ⟨h.1, h.2.1 rfl rfl rfl, h.2.2.1 rfl, (h.2.2.2 "r1" "f").2.2.1⟩

/-- C1 (counterexample): `c1G` maps to an all-empty canonical record
(every claimed field empty, items empty), yet with the stored file name
`"receipt.pdf"` normalization succeeds, and the orchestrated job commits
once and marks the receipt processed — the claimed rejection and
no-persistence behavior does not happen. -/
theorem C1_counterexample :
    toStringNorm (getField (mapGeminiToExpectedFormat c1G) "merchantName") = "" ∧
    toStringNorm (getField (mapGeminiToExpectedFormat c1G) "merchantAddress") = "" ∧
    toStringNorm (getField (mapGeminiToExpectedFormat c1G) "merchantContact") = "" ∧
    toStringNorm (getField (mapGeminiToExpectedFormat c1G) "transactionDate") = "" ∧
    toStringNorm (getField (mapGeminiToExpectedFormat c1G) "transactionAmount") = "" ∧
    toStringNorm (getField (mapGeminiToExpectedFormat c1G) "currency") = "" ∧
    toItems (getField (mapGeminiToExpectedFormat c1G) "items") = [] ∧
    (normalizeReceiptData (mapGeminiToExpectedFormat c1G) "r1" "receipt.pdf" c1G).isOk = true ∧
    (extractAndSavePDF c1Env "r1").commits = 1 ∧
    ((dbLookup (extractAndSavePDF c1Env "r1").db "r1").map StoredReceipt.status) =
      some "processed" := by
  refine ⟨rfl, rfl, rfl, rfl, rfl, rfl, by with_unfolding_all decide,
    by with_unfolding_all decide, by with_unfolding_all decide, by with_unfolding_all decide⟩

/-- C1 (amended): an all-empty mapped record is rejected with the
NoUsableDataError message, and the job makes no persistence commit,
precisely when the receipt's stored file name is also empty (the
all-empty check includes `fileDisplayName`). -/
theorem C1_rejection (g : JsValue) (id : String) (env : Env) (info : StoredReceipt)
    (res : JsValue)
    (h1 : toStringNorm (getField (mapGeminiToExpectedFormat g) "merchantName") = "")
    (h2 : toStringNorm (getField (mapGeminiToExpectedFormat g) "merchantAddress") = "")
    (h3 : toStringNorm (getField (mapGeminiToExpectedFormat g) "merchantContact") = "")
    (h4 : toStringNorm (getField (mapGeminiToExpectedFormat g) "transactionDate") = "")
    (h5 : toStringNorm (getField (mapGeminiToExpectedFormat g) "transactionAmount") = "")
    (h6 : toStringNorm (getField (mapGeminiToExpectedFormat g) "currency") = "")
    (h7 : toItems (getField (mapGeminiToExpectedFormat g) "items") = [])
    (hq : env.queryFails = false)
    (hdb : dbLookup env.db id = some info)
    (hfn : info.fileName = "")
    (hnet : env.networkRun = .ok res)
    (hparse : parseStage res env.jsonParse = .ok g) :
    normalizeReceiptData (mapGeminiToExpectedFormat g) id info.fileName g =
      .error "No key receipt fields could be extracted from the document." ∧
    extractAndSavePDF env id =
      { result := .errorOnly "Failed to extract any usable receipt data.",
        db := env.db, commits := 0 } := by
  have hall : allEmptyCheck
      (buildNormalized (mapGeminiToExpectedFormat g) id info.fileName g) = true := by
    unfold allEmptyCheck
    have e1 : (buildNormalized (mapGeminiToExpectedFormat g) id info.fileName g).merchantName =
        toStringNorm (getField (mapGeminiToExpectedFormat g) "merchantName") := rfl
    simp [buildNormalized, h1, h2, h3, h4, h5, h6, h7, hfn]
  have hnorm : normalizeReceiptData (mapGeminiToExpectedFormat g) id info.fileName g =
      .error "No key receipt fields could be extracted from the document." := by
    unfold normalizeReceiptData
    simp [hall]
  refine ⟨hnorm, ?_⟩
  unfold extractAndSavePDF
  rw [hq]
  simp only [Bool.false_eq_true, if_false, hdb, hnet, hparse, hnorm]

/-- C1 (witness): the amended rejection at the concrete record `c1G`
with an empty stored file name: normalization errors and the job makes
zero commits, leaving the store unchanged. -/
theorem C1_rejection_witness :
    normalizeReceiptData (mapGeminiToExpectedFormat c1G) "r1" "" c1G =
      .error "No key receipt fields could be extracted from the document." ∧
    extractAndSavePDF c1EnvNoName "r1" =
      { result := .errorOnly "Failed to extract any usable receipt data.",
        db := c1EnvNoName.db, commits := 0 } :=
  C1_rejection c1G "r1" c1EnvNoName pendingReceiptNoName (.vArr [.vObj [("output", c1G)]])
    rfl rfl rfl rfl rfl rfl (by with_unfolding_all decide)
    rfl rfl rfl rfl rfl

/-- C3 (counterexample): a failing metadata lookup is converted into the
object literal holding only an `error` property; that object has no
`success` property at all (reading it gives `undefined`, not `false`),
so the claimed `\x7b success: false, error \x7d` shape is not what the
job returns. -/
theorem C3_counterexample :
    (extractAndSavePDF c3Env "r1").result =
      .errorOnly "Failed to fetch receipt information." ∧
    getField (jobResultToJs (extractAndSavePDF c3Env "r1").result) "success" = .vUndefined ∧
    JsValue.vUndefined ≠ JsValue.vBool false := by
  refine ⟨rfl, rfl, by simp⟩

/-- C3 (amended): for every environment, the job returns either the
persistence helper's result or one of the five stage-failure objects;
each failure object is exactly `\x7b error: message \x7d`, whose
`success` property is absent (`undefined`); no exception crosses the job
boundary (the model is a total function, with the persistence helper,
absent from src, modelled from the spec as non-throwing). -/
theorem C3_error_conversion (env : Env) (id : String) :
    (∃ r, (extractAndSavePDF env id).result = .saveRes r) ∨
    (∃ m, (extractAndSavePDF env id).result = .errorOnly m ∧
      (m = "Failed to fetch receipt information." ∨ m = "Receipt not found." ∨
        m = "Failed to process PDF with AI agent." ∨
        m = "Failed to extract data from receipt." ∨
        m = "Failed to extract any usable receipt data.") ∧
      jobResultToJs ((extractAndSavePDF env id).result) = .vObj [("error", .vStr m)] ∧
      getField (jobResultToJs ((extractAndSavePDF env id).result)) "success" = .vUndefined) := by
  unfold extractAndSavePDF
  split
  · right
    exact ⟨_, rfl, by simp, rfl, rfl⟩
  · split
    · right
      exact ⟨_, rfl, by simp, rfl, rfl⟩
    · split
      · right
        exact ⟨_, rfl, by simp, rfl, rfl⟩
      · split
        · right
          exact ⟨_, rfl, by simp, rfl, rfl⟩
        · dsimp only
          split
          · right
            exact ⟨_, rfl, by simp, rfl, rfl⟩
          · left
            exact ⟨_, rfl⟩

/-- C4: on every failure path of the job the store is unchanged and
zero persistence commits are made; on the success path exactly one
commit is made, the helper reports success, and the receipt's stored
status becomes `"processed"` (persistence helper modelled from the
spec). -/
theorem C4_persistence (env : Env) (id : String) :
    (∀ m, (extractAndSavePDF env id).result = .errorOnly m →
      (extractAndSavePDF env id).db = env.db ∧ (extractAndSavePDF env id).commits = 0) ∧
    (∀ r, (extractAndSavePDF env id).result = .saveRes r →
      r.success = true ∧ (extractAndSavePDF env id).commits = 1 ∧
      ((dbLookup (extractAndSavePDF env id).db id).map StoredReceipt.status) =
        some "processed") := by
  by_cases hq : env.queryFails = true
  · have hjob : extractAndSavePDF env id =
        { result := .errorOnly "Failed to fetch receipt information.",
          db := env.db, commits := 0 } := by
      unfold extractAndSavePDF
      rw [if_pos hq]
    exact ⟨fun m _ => ⟨by rw [hjob], by rw [hjob]⟩,
      fun r hr => by rw [hjob] at hr; simp at hr⟩
  · have hq2 : env.queryFails = false := by simpa using hq
    cases hdb : dbLookup env.db id with
    | none =>
      have hjob : extractAndSavePDF env id =
          { result := .errorOnly "Receipt not found.", db := env.db, commits := 0 } := by
        unfold extractAndSavePDF
        rw [hq2]
        simp only [Bool.false_eq_true, if_false, hdb]
      exact ⟨fun m _ => ⟨by rw [hjob], by rw [hjob]⟩,
        fun r hr => by rw [hjob] at hr; simp at hr⟩
    | some info =>
      cases hnet : env.networkRun with
      | error e =>
        have hjob : extractAndSavePDF env id =
            { result := .errorOnly "Failed to process PDF with AI agent.",
              db := env.db, commits := 0 } := by
          unfold extractAndSavePDF
          rw [hq2]
          simp only [Bool.false_eq_true, if_false, hdb, hnet]
        exact ⟨fun m _ => ⟨by rw [hjob], by rw [hjob]⟩,
          fun r hr => by rw [hjob] at hr; simp at hr⟩
      | ok results =>
        cases hparse : parseStage results env.jsonParse with
        | error e =>
          have hjob : extractAndSavePDF env id =
              { result := .errorOnly "Failed to extract data from receipt.",
                db := env.db, commits := 0 } := by
            unfold extractAndSavePDF
            rw [hq2]
            simp only [Bool.false_eq_true, if_false, hdb, hnet, hparse]
          exact ⟨fun m _ => ⟨by rw [hjob], by rw [hjob]⟩,
            fun r hr => by rw [hjob] at hr; simp at hr⟩
        | ok extracted =>
          cases hnorm : normalizeReceiptData (mapGeminiToExpectedFormat extracted) id
              info.fileName extracted with
          | error e =>
            have hjob : extractAndSavePDF env id =
                { result := .errorOnly "Failed to extract any usable receipt data.",
                  db := env.db, commits := 0 } := by
              unfold extractAndSavePDF
              rw [hq2]
              simp only [Bool.false_eq_true, if_false, hdb, hnet, hparse, hnorm]
            exact ⟨fun m _ => ⟨by rw [hjob], by rw [hjob]⟩,
              fun r hr => by rw [hjob] at hr; simp at hr⟩
          | ok nd =>
            have hrid : nd.receiptId = id :=
              normalize_ok_receiptId _ _ _ _ _ hnorm
            have hsave : saveToDatabaseWithGemini env.db nd =
                (dbSet env.db id
                  { info with
                    fileDisplayName := nd.fileDisplayName,
                    merchantName := nd.merchantName,
                    merchantAddress := nd.merchantAddress,
                    merchantContact := nd.merchantContact,
                    transactionDate := nd.transactionDate,
                    transactionAmount := nd.transactionAmount,
                    currency := nd.currency,
                    receiptSummary := nd.receiptSummary,
                    items := nd.items,
                    status := "processed" },
                 { success := true, dataReceiptId := some nd.receiptId, error := none }, 1) := by
              unfold saveToDatabaseWithGemini updateReceiptWithExtractedData
              rw [hrid, hdb]
            have hjob : extractAndSavePDF env id =
                { result := .saveRes
                    { success := true, dataReceiptId := some nd.receiptId, error := none },
                  db := dbSet env.db id
                    { info with
                      fileDisplayName := nd.fileDisplayName,
                      merchantName := nd.merchantName,
                      merchantAddress := nd.merchantAddress,
                      merchantContact := nd.merchantContact,
                      transactionDate := nd.transactionDate,
                      transactionAmount := nd.transactionAmount,
                      currency := nd.currency,
                      receiptSummary := nd.receiptSummary,
                      items := nd.items,
                      status := "processed" },
                  commits := 1 } := by
              unfold extractAndSavePDF
              rw [hq2]
              simp only [Bool.false_eq_true, if_false, hdb, hnet, hparse, hnorm, hsave]
            constructor
            · intro m hm
              rw [hjob] at hm
              simp at hm
            · intro r hr
              rw [hjob] at hr
              simp only [JobResult.saveRes.injEq] at hr
              subst hr
              refine ⟨rfl, by rw [hjob], ?_⟩
              rw [hjob]
              have hlook := dbLookup_dbSet_self env.db id
                { info with
                  fileDisplayName := nd.fileDisplayName,
                  merchantName := nd.merchantName,
                  merchantAddress := nd.merchantAddress,
                  merchantContact := nd.merchantContact,
                  transactionDate := nd.transactionDate,
                  transactionAmount := nd.transactionAmount,
                  currency := nd.currency,
                  receiptSummary := nd.receiptSummary,
                  items := nd.items,
                  status := "processed" } info hdb
              rw [hlook]
              rfl

/-- C4 (witness): the failure rule at a query-failing environment, and
the success rule at an environment whose run commits once and marks the
receipt processed. -/
theorem C4_persistence_witness :
    ((extractAndSavePDF c4FailEnv "r1").db = c4FailEnv.db ∧
      (extractAndSavePDF c4FailEnv "r1").commits = 0) ∧
    (({ success := true, dataReceiptId := some "r1", error := none } : SaveResult).success = true ∧
      (extractAndSavePDF c4Env "r1").commits = 1 ∧
      ((dbLookup (extractAndSavePDF c4Env "r1").db "r1").map StoredReceipt.status) =
        some "processed") :=
  ⟨(C4_persistence c4FailEnv "r1").1 "Failed to fetch receipt information." rfl,
   (C4_persistence c4Env "r1").2 { success := true, dataReceiptId := some "r1", error := none }
     (by with_unfolding_all decide)⟩

end RetailEdge
